import Mathlib

/-!
Verification of the MongoDB coding-question validator/updater pipeline.

This file shallowly embeds the TypeScript sources of the repository:
JavaScript values are modelled by the inductive `JsValue` (JS numbers are
modelled as integers, which covers every numeric value the pipeline
manipulates), fallible operations return `Except`, and the MongoDB
collection is modelled as an association list from document ids to
documents.  Each definition mirrors one function of the sources; theorems
about the spec's claims follow at the end of the file.
-/

set_option maxRecDepth 4000

/-- A JavaScript value, as manipulated by the untyped (`any`) document code.
JS numbers are modelled as integers (the pipeline only handles integral
numbers such as test-case ids); `vundefined` is JavaScript `undefined`. -/
inductive JsValue where
  | vnull
  | vundefined
  | vbool (b : Bool)
  | vnum (n : Int)
  | vstr (s : String)
  | varr (elems : List JsValue)
  | vobj (fields : List (String × JsValue))

namespace JsValue

/-- JavaScript `typeof`. -/
def jsTypeof : JsValue → String
  | .vnull => "object"
  | .vundefined => "undefined"
  | .vbool _ => "boolean"
  | .vnum _ => "number"
  | .vstr _ => "string"
  | .varr _ => "object"
  | .vobj _ => "object"

/-- The type name zod reports as `received` for a value. -/
def zodTypeName : JsValue → String
  | .vnull => "null"
  | .vundefined => "undefined"
  | .vbool _ => "boolean"
  | .vnum _ => "number"
  | .vstr _ => "string"
  | .varr _ => "array"
  | .vobj _ => "object"

/-- JavaScript truthiness. -/
def jsTruthy : JsValue → Bool
  | .vnull => false
  | .vundefined => false
  | .vbool b => b
  | .vnum n => n != 0
  | .vstr s => !s.toList.isEmpty
  | .varr _ => true
  | .vobj _ => true

end JsValue

/-- Property read `o[key]`: `vundefined` when the key is absent or the receiver
is not an object (the code only reads properties of objects). -/
def getProp (o : JsValue) (key : String) : JsValue :=
  match o with
  | .vobj fields => ((fields.find? (fun p => p.1 == key)).map (fun p => p.2)).getD .vundefined
  | _ => .vundefined

/-- Key lookup on an object's field list (JS property access on a known
object); `none` models an absent key. -/
def getField (fields : List (String × JsValue)) (key : String) : Option JsValue :=
  (fields.find? (fun p => p.1 == key)).map (fun p => p.2)

/-- Like `getField`, but an explicit `undefined` value counts as absent
(zod treats a key set to `undefined` exactly like a missing key). -/
def getDefined (fields : List (String × JsValue)) (key : String) : Option JsValue :=
  match getField fields key with
  | some .vundefined => none
  | o => o

mutual

/-- JavaScript string conversion `String(v)` / `v.toString()`. -/
def jsToString : JsValue → String
  | .vnull => "null"
  | .vundefined => "undefined"
  | .vbool b => cond b "true" "false"
  | .vnum n => toString n
  | .vstr s => s
  | .varr xs => jsToStringArr xs
  | .vobj _ => "[object Object]"

/-- JavaScript `Array.prototype.toString`: elements joined by commas, with `null` and
`undefined` rendered as empty strings. -/
def jsToStringArr : List JsValue → String
  | [] => ""
  | x :: xs =>
    (match x with
     | .vnull => ""
     | .vundefined => ""
     | v => jsToString v)
    ++ (if xs.isEmpty then "" else ",") ++ jsToStringArr xs

end

/-- Whether `pat` is a prefix of `s` (on character lists, so that every
use kernel-evaluates on concrete inputs). -/
def charsStartWith : List Char → List Char → Bool
  | _, [] => true
  | [], _ :: _ => false
  | c :: cs, p :: ps => c == p && charsStartWith cs ps

/-- Whether `pat` occurs inside `s` as a contiguous run. -/
def charsContain : List Char → List Char → Bool
  | [], pat => charsStartWith [] pat
  | c :: cs, pat => charsStartWith (c :: cs) pat || charsContain cs pat

/-- Models JavaScript `s.includes(pat)` for a multi-character pattern. -/
def containsSub (s pat : String) : Bool :=
  charsContain s.toList pat.toList

/-- Models JavaScript `s.includes(c)` for a single-character pattern. -/
def strContains (s : String) (c : Char) : Bool :=
  s.toList.contains c

/-- Closed taxonomy of validation error kinds (ValidationErrorCode in
src/models/ValidationError). -/
inductive ValidationErrorCode where
  | MISSING_FIELD
  | INVALID_TYPE
  | INVALID_VALUE
  | INVALID_FORMAT
  | EMPTY_ARRAY
  | EXTRA_FIELD
  | CONSTRAINT_VIOLATION
  deriving DecidableEq

/-- Structured validation error (ValidationError in
src/models/ValidationError). -/
structure ValidationError where
  field : String
  message : String
  code : ValidationErrorCode
  value : Option JsValue := none

/-- Result of validating one document (ValidationResult in
src/models/ValidationError). -/
structure ValidationResult where
  isValid : Bool
  errors : List ValidationError
  documentId : Option String := none

namespace ValidationErrorFactory

def missingField (field : String) : ValidationError :=
  { field
    message := "Required field \"" ++ field ++ "\" is missing"
    code := .MISSING_FIELD }

def invalidType (field expectedType : String) (actualValue : JsValue) : ValidationError :=
  { field
    message := "Field \"" ++ field ++ "\" has invalid type. Expected " ++ expectedType
      ++ ", got " ++ actualValue.jsTypeof
    code := .INVALID_TYPE
    value := some actualValue }

def invalidValue (field message : String) (value : Option JsValue := none) : ValidationError :=
  { field
    message := "Field \"" ++ field ++ "\": " ++ message
    code := .INVALID_VALUE
    value }

def invalidFormat (field message : String) (value : Option JsValue := none) : ValidationError :=
  { field
    message := "Field \"" ++ field ++ "\": " ++ message
    code := .INVALID_FORMAT
    value }

def emptyArray (field : String) : ValidationError :=
  { field
    message := "Array field \"" ++ field ++ "\" must not be empty"
    code := .EMPTY_ARRAY }

def extraField (field : String) : ValidationError :=
  { field
    message := "Extra field \"" ++ field ++ "\" not allowed in schema"
    code := .EXTRA_FIELD }

def constraintViolation (field message : String) : ValidationError :=
  { field
    message := "Constraint violation in \"" ++ field ++ "\": " ++ message
    code := .CONSTRAINT_VIOLATION }

end ValidationErrorFactory

/-- A test case as typed by TestCaseSchema (src/models/CodingQuestion). -/
structure TestCase where
  id : Int
  input : String
  expectedOutput : String
  description : String
  original_input : String
  original_output : String

namespace CodingQuestionValidator

/-- Function `validateTestCaseFormat` from src/models/CodingQuestion: the input is
flagged when it contains an equals sign, or both an opening and a closing
bracket (the source's `includes('=') || includes('[') && includes(']')`,
where `&&` binds tighter than `||`); the expected output is flagged when it
contains an equals sign, or an opening bracket, a closing bracket and a
comma. -/
def validateTestCaseFormat (testCase : TestCase) : List String :=
  (if strContains testCase.input '=' ||
      (strContains testCase.input '[' && strContains testCase.input ']') then
    ["Test case " ++ toString testCase.id
      ++ ": Input should be in stdin format, not variable assignment format"]
  else []) ++
  (if strContains testCase.expectedOutput '=' ||
      (strContains testCase.expectedOutput '[' && strContains testCase.expectedOutput ']'
        && strContains testCase.expectedOutput ',') then
    ["Test case " ++ toString testCase.id
      ++ ": Expected output should be in stdout format, not data structure format"]
  else [])

/-- Function `validateInputFormat` from src/models/CodingQuestion. -/
def validateInputFormat (inputFormat : String) : List String :=
  if !(containsSub inputFormat "```") then
    ["inputFormat should contain code blocks with ``` markers"]
  else []

/-- Function `performCustomValidations` from src/models/CodingQuestion, taking the
question's test cases and inputFormat field. -/
def performCustomValidations (testCases : List TestCase) (inputFormat : String) :
    List String :=
  testCases.flatMap validateTestCaseFormat ++ validateInputFormat inputFormat

end CodingQuestionValidator

/-- Character class `[a-z0-9]` of the slug regular expression. -/
def isSlugChar (c : Char) : Bool :=
  (('a' ≤ c && c ≤ 'z') || c.isDigit)

/-- Splitting a character list on a separator character (the groups between
separators, in order; empty groups are kept). -/
def splitChars (sep : Char) : List Char → List (List Char)
  | [] => [[]]
  | c :: cs =>
    match splitChars sep cs with
    | [] => [[]]
    | g :: gs => if c == sep then [] :: g :: gs else (c :: g) :: gs

/-- Matching against the SlugSchema regular expression
`[a-z0-9]+(-[a-z0-9]+)*` anchored at both ends: splitting on `-` must give
non-empty groups of slug characters only. -/
def slugMatches (s : String) : Bool :=
  (splitChars '-' s.toList).all (fun g => !g.isEmpty && g.all isSlugChar)

namespace SchemaValidator

open ValidationErrorFactory

/-- The fixed key set of CodingQuestionSchema (the schema is `.strict()`,
so any other key is a disallowed extra field). -/
def allowedKeys : List String :=
  ["_id", "question_id", "title", "difficulty", "slug", "topic_tags", "content",
   "constraints", "testCases", "starterCode", "solutionCode", "inputFormat",
   "outputFormat"]

/-- Checking a required `z.string().min(1, minMessage)` field, translated to
ValidationError exactly as the converter in SchemaValidator.validateWithZod
does: a missing or wrong-typed value gives an invalid_type error (whose
`received` is the zod type name), an empty string gives the schema's
too-small message as an invalid-value error. -/
def zodRequiredString (fields : List (String × JsValue)) (key minMessage : String) :
    List ValidationError :=
  match getDefined fields key with
  | none => [invalidType key "string" (.vstr "undefined")]
  | some (.vstr s) => if s.toList.isEmpty then [invalidValue key minMessage] else []
  | some v => [invalidType key "string" (.vstr v.zodTypeName)]

/-- Checking a plain `z.string()` field (no minimum length). -/
def zodAnyString (fields : List (String × JsValue)) (key : String) :
    List ValidationError :=
  match getDefined fields key with
  | none => [invalidType key "string" (.vstr "undefined")]
  | some (.vstr _) => []
  | some v => [invalidType key "string" (.vstr v.zodTypeName)]

/-- Checking the DifficultySchema enum: a non-string gives invalid_type, a
string outside the closed set gives the converter's invalid_enum_value
rendering `Must be one of: ...` with the received value attached. -/
def zodDifficulty (fields : List (String × JsValue)) : List ValidationError :=
  match getDefined fields "difficulty" with
  | none => [invalidType "difficulty" "'Easy' | 'Medium' | 'Hard'" (.vstr "undefined")]
  | some (.vstr s) =>
    if s == "Easy" || s == "Medium" || s == "Hard" then []
    else [invalidValue "difficulty" "Must be one of: Easy, Medium, Hard" (some (.vstr s))]
  | some v => [invalidType "difficulty" "'Easy' | 'Medium' | 'Hard'" (.vstr v.zodTypeName)]

/-- Checking the SlugSchema field: a regex mismatch is an invalid_string
issue, converted to an invalid-format error with the schema's message. -/
def zodSlug (fields : List (String × JsValue)) : List ValidationError :=
  match getDefined fields "slug" with
  | none => [invalidType "slug" "string" (.vstr "undefined")]
  | some (.vstr s) =>
    if slugMatches s then []
    else [invalidFormat "slug" "Slug must be lowercase with hyphens (e.g., \"two-sum\")"]
  | some v => [invalidType "slug" "string" (.vstr v.zodTypeName)]

/-- Checking a `z.array(z.string()).min(1)` field: a too-small array issue
becomes an empty-array error, each non-string element an invalid_type error
at its dotted index path. -/
def zodStringArray (fields : List (String × JsValue)) (key : String) :
    List ValidationError :=
  match getDefined fields key with
  | none => [invalidType key "array" (.vstr "undefined")]
  | some (.varr xs) =>
    (if xs.length < 1 then [emptyArray key] else []) ++
    (xs.enum.flatMap fun p =>
      match p.2 with
      | .vstr _ => []
      | v => [invalidType (key ++ "." ++ toString p.1) "string" (.vstr v.zodTypeName)])
  | some v => [invalidType key "array" (.vstr v.zodTypeName)]

/-- Checking one TestCaseSchema object at dotted path `path` (id must be a
positive integer; input, expectedOutput and description are non-empty
strings; the two original fields only need to be strings). -/
def zodTestCaseObj (path : String) (fs : List (String × JsValue)) :
    List ValidationError :=
  (match getDefined fs "id" with
   | none => [invalidType (path ++ ".id") "number" (.vstr "undefined")]
   | some (.vnum n) =>
     if n ≤ 0 then [invalidValue (path ++ ".id") "Number must be greater than 0"] else []
   | some v => [invalidType (path ++ ".id") "number" (.vstr v.zodTypeName)]) ++
  (match getDefined fs "input" with
   | none => [invalidType (path ++ ".input") "string" (.vstr "undefined")]
   | some (.vstr s) =>
     if s.toList.isEmpty then [invalidValue (path ++ ".input") "Test case input must not be empty"]
     else []
   | some v => [invalidType (path ++ ".input") "string" (.vstr v.zodTypeName)]) ++
  (match getDefined fs "expectedOutput" with
   | none => [invalidType (path ++ ".expectedOutput") "string" (.vstr "undefined")]
   | some (.vstr s) =>
     if s.toList.isEmpty then
       [invalidValue (path ++ ".expectedOutput") "Test case expected output must not be empty"]
     else []
   | some v => [invalidType (path ++ ".expectedOutput") "string" (.vstr v.zodTypeName)]) ++
  (match getDefined fs "description" with
   | none => [invalidType (path ++ ".description") "string" (.vstr "undefined")]
   | some (.vstr s) =>
     if s.toList.isEmpty then
       [invalidValue (path ++ ".description") "Test case description must not be empty"]
     else []
   | some v => [invalidType (path ++ ".description") "string" (.vstr v.zodTypeName)]) ++
  (match getDefined fs "original_input" with
   | none => [invalidType (path ++ ".original_input") "string" (.vstr "undefined")]
   | some (.vstr _) => []
   | some v => [invalidType (path ++ ".original_input") "string" (.vstr v.zodTypeName)]) ++
  (match getDefined fs "original_output" with
   | none => [invalidType (path ++ ".original_output") "string" (.vstr "undefined")]
   | some (.vstr _) => []
   | some v => [invalidType (path ++ ".original_output") "string" (.vstr v.zodTypeName)])

/-- Checking the `z.array(TestCaseSchema).min(1)` field. -/
def zodTestCases (fields : List (String × JsValue)) : List ValidationError :=
  match getDefined fields "testCases" with
  | none => [invalidType "testCases" "array" (.vstr "undefined")]
  | some (.varr xs) =>
    (if xs.length < 1 then [emptyArray "testCases"] else []) ++
    (xs.enum.flatMap fun p =>
      match p.2 with
      | .vobj fs => zodTestCaseObj ("testCases." ++ toString p.1) fs
      | v => [invalidType ("testCases." ++ toString p.1) "object" (.vstr v.zodTypeName)])
  | some v => [invalidType "testCases" "array" (.vstr v.zodTypeName)]

/-- Checking one language key of LanguageCodeSchema at path `key.lang`. -/
def zodLanguageEntry (key : String) (fs : List (String × JsValue))
    (lang minMessage : String) : List ValidationError :=
  match getDefined fs lang with
  | none => [invalidType (key ++ "." ++ lang) "string" (.vstr "undefined")]
  | some (.vstr s) => if s.toList.isEmpty then [invalidValue (key ++ "." ++ lang) minMessage] else []
  | some v => [invalidType (key ++ "." ++ lang) "string" (.vstr v.zodTypeName)]

/-- Checking a LanguageCodeSchema field: all five fixed language keys must
map to non-empty strings (extra keys are stripped by zod's default object
mode, so they are not errors here). -/
def zodLanguageCode (fields : List (String × JsValue)) (key : String) :
    List ValidationError :=
  match getDefined fields key with
  | none => [invalidType key "object" (.vstr "undefined")]
  | some (.vobj fs) =>
    zodLanguageEntry key fs "c" "C code must not be empty" ++
    zodLanguageEntry key fs "cpp" "C++ code must not be empty" ++
    zodLanguageEntry key fs "java" "Java code must not be empty" ++
    zodLanguageEntry key fs "javascript" "JavaScript code must not be empty" ++
    zodLanguageEntry key fs "python" "Python code must not be empty"
  | some v => [invalidType key "object" (.vstr v.zodTypeName)]

/-- Structural pass `validateWithZod` of src/validators/SchemaValidator:
parse against CodingQuestionSchema and convert every zod issue into a
ValidationError (the `_id` field is `z.any().optional()` and never errs;
field issues are listed in the schema's declaration order, one extra-field
error per unrecognized key — the top-level path is empty, so those fields
render as `.key`). -/
def validateWithZod (document : JsValue) : List ValidationError :=
  match document with
  | .vobj fields =>
    zodRequiredString fields "question_id" "question_id is required" ++
    zodRequiredString fields "title" "Title is required" ++
    zodDifficulty fields ++
    zodSlug fields ++
    zodStringArray fields "topic_tags" ++
    zodRequiredString fields "content" "Content is required" ++
    zodStringArray fields "constraints" ++
    zodTestCases fields ++
    zodLanguageCode fields "starterCode" ++
    zodLanguageCode fields "solutionCode" ++
    zodRequiredString fields "inputFormat" "inputFormat is required" ++
    zodRequiredString fields "outputFormat" "outputFormat is required" ++
    (fields.filter (fun p => !(allowedKeys.contains p.1))).map
      (fun p => extraField ("." ++ p.1))
  | v => [invalidType "" "object" (.vstr v.zodTypeName)]

end SchemaValidator

/-- Reading a string-typed property of a schema-conforming document (used
after the structural pass has succeeded, so the default is never hit). -/
def asString (v : JsValue) : String :=
  match v with
  | .vstr s => s
  | _ => ""

/-- View of one raw test-case object as the typed TestCase the custom
validator receives (after the structural pass succeeded the defaults are
never hit). -/
def toTestCase (v : JsValue) : TestCase :=
  { id := match getProp v "id" with | .vnum n => n | _ => 0
    input := asString (getProp v "input")
    expectedOutput := asString (getProp v "expectedOutput")
    description := asString (getProp v "description")
    original_input := asString (getProp v "original_input")
    original_output := asString (getProp v "original_output") }

/-- The document's testCases array as typed test cases. -/
def extractTestCases (document : JsValue) : List TestCase :=
  match getProp document "testCases" with
  | .varr xs => xs.map toTestCase
  | _ => []

namespace SchemaValidator

open ValidationErrorFactory

/-- Method `performCustomValidations` of src/validators/SchemaValidator:
run the custom validator of the CodingQuestion model and convert each
string message into a ValidationError by keyword (messages mentioning
`Test case` or `inputFormat` become invalid-format errors on those fields,
anything else a constraint violation on `document`). -/
def performCustomValidations (document : JsValue) : List ValidationError :=
  (CodingQuestionValidator.performCustomValidations
      (extractTestCases document) (asString (getProp document "inputFormat"))).map
    fun errorMsg =>
      if containsSub errorMsg "Test case" then invalidFormat "testCases" errorMsg
      else if containsSub errorMsg "inputFormat" then invalidFormat "inputFormat" errorMsg
      else constraintViolation "document" errorMsg

/-- Document id extraction at the top of `validate`: `document._id` is
stringified when truthy. -/
def extractDocumentId (document : JsValue) : Option String :=
  if JsValue.jsTruthy (getProp document "_id") then some (jsToString (getProp document "_id"))
  else none

/-- Method `validate` of src/validators/SchemaValidator on ordinary data
(the pure happy path of the try block): run the structural zod pass, run
the custom semantic pass only when the structural pass produced no errors,
aggregate, and report validity as emptiness of the aggregate. -/
def validate (document : JsValue) : ValidationResult :=
  let documentId := extractDocumentId document
  let zodErrors := validateWithZod document
  let errors := zodErrors ++ (if zodErrors.isEmpty then performCustomValidations document else [])
  { isValid := errors.isEmpty
    errors := errors
    documentId := documentId }

/-- An abstract outcome of one validation pass: either the errors it
returned or the message of the exception it raised. -/
abbrev PassOutcome := Except String (List ValidationError)

/-- The try/catch inside method `performCustomValidations`: an exception
raised by the custom validator is caught and only logged, so the pass
returns the errors pushed so far — none, because the conversion happens
after the call that raised. -/
def performCustomValidationsGuarded (outcome : PassOutcome) : List ValidationError :=
  match outcome with
  | .ok errs => errs
  | .error _ => []

/-- Exception structure of method `validate`: the outer try/catch around
both passes, with each pass's behaviour abstracted into a PassOutcome.  An
exception escaping the structural pass reaches the outer catch, which
returns the single synthetic invalid-value error on field `document`; an
exception in the custom pass is swallowed by the inner catch modelled in
`performCustomValidationsGuarded`. -/
def validateOutcome (documentId : Option String) (zodOutcome customOutcome : PassOutcome) :
    ValidationResult :=
  match zodOutcome with
  | .error msg =>
    { isValid := false
      errors := [ValidationErrorFactory.invalidValue "document"
        ("Critical validation error: " ++ msg)]
      documentId := documentId }
  | .ok zodErrors =>
    let errors := zodErrors ++
      (if zodErrors.isEmpty then performCustomValidationsGuarded customOutcome else [])
    { isValid := errors.isEmpty
      errors := errors
      documentId := documentId }

end SchemaValidator

/-- A LanguageBundle value with all five languages non-empty. -/
def sampleLanguageCode : JsValue :=
  .vobj [("c", .vstr "int main() 0"), ("cpp", .vstr "int main() 0"),
         ("java", .vstr "class Main"), ("javascript", .vstr "function solve()"),
         ("python", .vstr "def solve(): pass")]

/-- A fully schema- and semantics-conforming coding-question record. -/
def validDoc : JsValue :=
  .vobj [("_id", .vstr "65a0c0ffee0123456789abcd"),
         ("question_id", .vstr "q-1"),
         ("title", .vstr "Two Sum"),
         ("difficulty", .vstr "Easy"),
         ("slug", .vstr "two-sum"),
         ("topic_tags", .varr [.vstr "arrays"]),
         ("content", .vstr "Given numbers, print their sum."),
         ("constraints", .varr [.vstr "1 <= n <= 100"]),
         ("testCases", .varr [.vobj
            [("id", .vnum 1), ("input", .vstr "2\n3 5"), ("expectedOutput", .vstr "8"),
             ("description", .vstr "two numbers"), ("original_input", .vstr ""),
             ("original_output", .vstr "")]]),
         ("starterCode", sampleLanguageCode),
         ("solutionCode", sampleLanguageCode),
         ("inputFormat", .vstr "```\n2\n3 5\n```"),
         ("outputFormat", .vstr "Print the sum.")]

/-- The same record with the lowercase difficulty `easy`, which the closed
enum rejects. -/
def invalidDoc : JsValue :=
  .vobj [("_id", .vstr "65a0c0ffee0123456789abce"),
         ("question_id", .vstr "q-2"),
         ("title", .vstr "Two Sum"),
         ("difficulty", .vstr "easy"),
         ("slug", .vstr "two-sum"),
         ("topic_tags", .varr [.vstr "arrays"]),
         ("content", .vstr "Given numbers, print their sum."),
         ("constraints", .varr [.vstr "1 <= n <= 100"]),
         ("testCases", .varr [.vobj
            [("id", .vnum 1), ("input", .vstr "2\n3 5"), ("expectedOutput", .vstr "8"),
             ("description", .vstr "two numbers"), ("original_input", .vstr ""),
             ("original_output", .vstr "")]]),
         ("starterCode", sampleLanguageCode),
         ("solutionCode", sampleLanguageCode),
         ("inputFormat", .vstr "```\n2\n3 5\n```"),
         ("outputFormat", .vstr "Print the sum.")]

/-- Retry configuration (RetryOptions in src/utils/RetryHelper); the
attempt bound is an `Int` because nothing in JavaScript keeps it
non-negative.  The optional per-attempt observer callback is pure
observation and is not modelled. -/
structure RetryOptions where
  maxAttempts : Int
  delayMs : Nat
  exponentialBackoff : Bool

/-- What `RetryHelper.execute` can throw: the wrapped operation's last
error, or the generic `Retry failed` error of the final line, reached only
when the loop body never ran. -/
inductive RetryError (E : Type) where
  | wrapped (e : E)
  | genericFailure

/-- The flag criterion the code applies to a test case's input:
an equals sign, or an opening and a closing bracket (no comma needed). -/
def eqOrBracketFlag (s : String) : Bool :=
  strContains s '=' || (strContains s '[' && strContains s ']')

/-- Modelled from the spec: the claimed flag criterion — an equals sign,
or a bracket pair together with a comma.  The code applies this criterion
to the expected output only. -/
def eqOrBracketCommaFlag (s : String) : Bool :=
  strContains s '=' || (strContains s '[' && strContains s ']' && strContains s ',')

/-- A test case whose input has a bracket pair but no comma and no equals
sign (for example a space-separated matrix row literal). -/
def bracketNoCommaCase : TestCase :=
  { id := 1, input := "[1 2]", expectedOutput := "8", description := "bracket pair, no comma"
    original_input := "", original_output := "" }

/-- The spec's flagged example: a variable-assignment style input. -/
def assignmentStyleCase : TestCase :=
  { id := 1, input := "nums = [3,5]", expectedOutput := "8", description := "assignment style"
    original_input := "", original_output := "" }

/-- The spec's clean example: line-oriented stdin/stdout text. -/
def stdinStyleCase : TestCase :=
  { id := 1, input := "2\n3 5", expectedOutput := "8", description := "stdin style"
    original_input := "", original_output := "" }

/-- A record whose question_id is the empty string (exactly the kind of
invalid record the pipeline repairs) with a well-formed `_id`. -/
def emptyQidDoc : JsValue :=
  .vobj [("_id", .vstr "65a0c0ffee0123456789abcf"), ("question_id", .vstr "")]

/-- A repair-service reply that invents a question_id. -/
def inventedQidReply : JsValue :=
  .vobj [("_id", .vstr "65a0c0ffee0123456789abcf"), ("question_id", .vstr "q-999")]

namespace RetryHelper

/-- The final line of `execute`, reached when the loop exits without
returning: `throw lastError || new Error('Retry failed')` with zero
invocations and delays from here on. -/
def throwLast (lastError : Option E) : Except (RetryError E) A × Nat × List Nat :=
  match lastError with
  | some e => (.error (.wrapped e), 0, [])
  | none => (.error .genericFailure, 0, [])

/-- The retry loop of `RetryHelper.execute` (src/utils/RetryHelper) from
attempt number `attempt` on; `lastError` is the error of the previous
failed attempt, `fn k` the outcome of the wrapped operation's `k`-th
invocation.  The result is the returned value or thrown error, paired with
how many times `fn` ran from here on and the list of delays slept, in
order. -/
def executeFrom (fn : Int → Except E A) (options : RetryOptions)
    (attempt : Int) (lastError : Option E) :
    Except (RetryError E) A × Nat × List Nat :=
  if _h : attempt ≤ options.maxAttempts then
    match fn attempt with
    | .ok a => (.ok a, 1, [])
    | .error e =>
      if attempt = options.maxAttempts then (.error (.wrapped e), 1, [])
      else
        let delay := if options.exponentialBackoff
          then options.delayMs * 2 ^ (attempt - 1).toNat else options.delayMs
        let rest := executeFrom fn options (attempt + 1) (some e)
        (rest.1, rest.2.1 + 1, delay :: rest.2.2)
  else throwLast lastError
termination_by (options.maxAttempts + 1 - attempt).toNat
decreasing_by omega

/-- Static method `execute` of RetryHelper: run the loop from attempt 1
with no previous error. -/
def execute (fn : Int → Except E A) (options : RetryOptions) :
    Except (RetryError E) A × Nat × List Nat :=
  executeFrom fn options 1 none

end RetryHelper

/-- The MongoDB collection, as an association list from document id to
document (ids are unique in MongoDB; none of the proofs need that
assumption). -/
abbrev Store := List (String × JsValue)

namespace MongoDBService

/-- Method `findById`: `findOne` keyed on the id. -/
def findById (store : Store) (documentId : String) : Option JsValue :=
  (store.find? (fun p => p.1 == documentId)).map (fun p => p.2)

/-- The destructuring `const \x7b _id, ...documentWithoutId \x7d` that drops
the immutable `_id` field from the replacement payload. -/
def removeIdField (document : JsValue) : JsValue :=
  match document with
  | .vobj fields => .vobj (fields.filter (fun p => !(p.1 == "_id")))
  | v => v

/-- Method `updateDocument` of MongoDBService: `findOneAndReplace` keyed on
the id with `upsert: false` — when a document matches, replace it by the
candidate minus its `_id` field and return true; when nothing matches,
write nothing and return false.  It never inserts. -/
def updateDocument (store : Store) (documentId : String) (correctedDocument : JsValue) :
    Bool × Store :=
  let documentWithoutId := removeIdField correctedDocument
  match findById store documentId with
  | some _ =>
    (true, store.map (fun p => if p.1 == documentId then (p.1, documentWithoutId) else p))
  | none => (false, store)

end MongoDBService

/-- The errors `UpdaterService.updateDocument` can throw. -/
inductive UpdateError where
  | stillInvalid (errorCount : Nat)
  | notFound (documentId : String)
  | retryFailed

namespace UpdaterService

/-- Method `updateDocument` of UpdaterService (the Safe Updater): validate
the candidate (throwing without touching the store when it is invalid),
verify the target exists (throwing a not-found error when it does not),
then run the store replace under `RetryHelper.execute`.  The store-level
replace returns instead of throwing in this model, so the retry loop
consumes at most one attempt; a non-positive attempt budget surfaces the
retry helper's own error. -/
def updateDocument (retryOptions : RetryOptions) (store : Store)
    (documentId : String) (correctedDocument : JsValue) :
    Except UpdateError Bool × Store :=
  let validationResult := SchemaValidator.validate correctedDocument
  if !validationResult.isValid then
    (.error (.stillInvalid validationResult.errors.length), store)
  else
    match MongoDBService.findById store documentId with
    | none => (.error (.notFound documentId), store)
    | some _ =>
      match (RetryHelper.execute
          (fun _ => (Except.ok (MongoDBService.updateDocument store documentId correctedDocument) :
            Except Empty (Bool × Store)))
          retryOptions).1 with
      | .ok (success, newStore) => (.ok success, newStore)
      | .error _ => (.error .retryFailed, store)

end UpdaterService

/-- Running counters of a scan (ScanStats in src/services/ScannerService;
the start/end wall-clock times are not modelled). -/
structure ScanStats where
  totalScanned : Nat
  validDocuments : Nat
  invalidDocuments : Nat
  backedUp : Nat
  queued : Nat
  errors : Nat

/-- The all-zero counters the scan starts from. -/
def ScanStats.init : ScanStats :=
  { totalScanned := 0, validDocuments := 0, invalidDocuments := 0,
    backedUp := 0, queued := 0, errors := 0 }

/-- A queued work item (QueueMessage in src/models/QueueMessage). -/
structure QueueMessage where
  documentId : String
  failedDocument : JsValue
  validationErrors : List ValidationError
  timestamp : String
  retryCount : Int

namespace ScannerService

/-- Id string used by the scanner: `doc._id?.toString() || 'unknown'`
(optional chaining yields undefined on null/undefined, and the empty
string is falsy). -/
def documentIdOrUnknown (doc : JsValue) : String :=
  match getProp doc "_id" with
  | .vnull => "unknown"
  | .vundefined => "unknown"
  | v => if (jsToString v).toList.isEmpty then "unknown" else jsToString v

/-- The QueueMessage built in `handleInvalidDocument` before enqueueing:
note the retry counter starts at 0 (`now` stands for the enqueue
timestamp). -/
def buildQueueMessage (now : String) (doc : JsValue)
    (validationErrors : List ValidationError) : QueueMessage :=
  { documentId := documentIdOrUnknown doc
    failedDocument := doc
    validationErrors := validationErrors
    timestamp := now
    retryCount := 0 }

/-- Counter updates of `handleInvalidDocument`: the backup is attempted
first (best-effort: its failure is only logged), then the enqueue, whose
failure increments the error counter instead of aborting the batch.
`backupOk` and `enqueueOk` abstract the outcomes of the two awaited side
effects. -/
def handleInvalidDocument (backupOk enqueueOk : Bool) (stats : ScanStats) : ScanStats :=
  let stats1 := if backupOk then { stats with backedUp := stats.backedUp + 1 } else stats
  if enqueueOk then { stats1 with queued := stats1.queued + 1 }
  else { stats1 with errors := stats1.errors + 1 }

/-- One iteration of the loop in `processBatch`: count the document as
scanned, validate it, then count it valid or count it invalid and run the
invalid-document handling. -/
def processDocument (backupOk enqueueOk : JsValue → Bool) (stats : ScanStats)
    (doc : JsValue) : ScanStats :=
  let stats := { stats with totalScanned := stats.totalScanned + 1 }
  if (SchemaValidator.validate doc).isValid then
    { stats with validDocuments := stats.validDocuments + 1 }
  else
    handleInvalidDocument (backupOk doc) (enqueueOk doc)
      { stats with invalidDocuments := stats.invalidDocuments + 1 }

/-- Method `processBatch` of ScannerService: fold the per-document step
over the batch in arrival order. -/
def processBatch (backupOk enqueueOk : JsValue → Bool) (batch : List JsValue)
    (stats : ScanStats) : ScanStats :=
  batch.foldl (processDocument backupOk enqueueOk) stats

end ScannerService

/-- A durable failure-report entry (FailureEntry in
src/utils/FailureReportManager). -/
structure FailureEntry where
  timestamp : String
  slug : String
  mongoId : String
  title : Option String
  retryAttempts : Int
  failureReason : String
  originalValidationErrors : List ValidationError
  backupFilePath : Option String

namespace FailureReportManager

/-- Static method `createFailureEntry` of FailureReportManager (`now`
stands for the wall-clock timestamp). -/
def createFailureEntry (now : String) (document : JsValue)
    (validationErrors : List ValidationError) (failureReason : String)
    (retryAttempts : Int) (backupFilePath : Option String) : FailureEntry :=
  { timestamp := now
    slug := if (getProp document "slug").jsTruthy then jsToString (getProp document "slug")
            else "unknown-slug"
    mongoId := if (getProp document "_id").jsTruthy then jsToString (getProp document "_id")
               else "no-id"
    title := match getProp document "title" with
             | .vundefined => none
             | t => some (jsToString t)
    retryAttempts := retryAttempts
    failureReason := failureReason
    originalValidationErrors := validationErrors
    backupFilePath := backupFilePath }

end FailureReportManager

namespace Consumer

/-- The escalation branch of the worker callback in src/consumer.ts, run
once per failed delivery of a message: when the message's retryCount has
reached `retryMaxAttempts - 1` the failure is appended to the durable
report with `retryCount + 1` as the attempts made; otherwise nothing is
written.  `errorMessage` is the failed attempt's error message. -/
def failureEntriesOnFailedAttempt (retryMaxAttempts : Int) (failedQuestionsDir now : String)
    (message : QueueMessage) (errorMessage : String) : List FailureEntry :=
  if message.retryCount ≥ retryMaxAttempts - 1 then
    let backupFilePath := failedQuestionsDir ++ "/"
      ++ (if (getProp message.failedDocument "slug").jsTruthy then
            jsToString (getProp message.failedDocument "slug")
          else "unknown")
      ++ "_" ++ message.documentId ++ ".json"
    [FailureReportManager.createFailureEntry now message.failedDocument
      message.validationErrors errorMessage (message.retryCount + 1) (some backupFilePath)]
  else []

/-- All failure-report entries a work item accumulates when every one of
its deliveries fails: the queue backend redelivers the message data
unchanged (nothing in the repository ever increments `retryCount`), so the
escalation branch sees the same message each time; `errorMessages` lists
the error message of each failed delivery in order. -/
def escalationsForWorkItem (retryMaxAttempts : Int) (failedQuestionsDir now : String)
    (message : QueueMessage) (errorMessages : List String) : List FailureEntry :=
  errorMessages.flatMap
    (failureEntriesOnFailedAttempt retryMaxAttempts failedQuestionsDir now message)

end Consumer

/-- JavaScript property assignment `o[key] = v` on an object: overwrite in
place when the key exists, append otherwise.  On a primitive receiver
strict-mode code throws a TypeError (`none`); exotic receivers such as
arrays, whose own properties this model cannot represent, are also mapped
to `none`. -/
def assignProp (o : JsValue) (key : String) (v : JsValue) : Option JsValue :=
  match o with
  | .vobj fields =>
    if (fields.find? (fun p => p.1 == key)).isSome then
      some (.vobj (fields.map fun p => if p.1 == key then (p.1, v) else p))
    else some (.vobj (fields ++ [(key, v)]))
  | _ => none

namespace AIProcessorService

/-- The tail of method `correctDocument` of AIProcessorService: the call
to the text-generation service and the JSON parse of its reply are
abstracted into `parsedResponse` (an arbitrary value, since the service
may answer anything); the method then copies `_id` and `question_id` back
from the input document — but each copy is guarded by the truthiness of
the input's field. -/
def correctDocument (document parsedResponse : JsValue) : Option JsValue :=
  match (if (getProp document "_id").jsTruthy then
           assignProp parsedResponse "_id" (getProp document "_id")
         else some parsedResponse) with
  | none => none
  | some c1 =>
    if (getProp document "question_id").jsTruthy then
      assignProp c1 "question_id" (getProp document "question_id")
    else some c1

end AIProcessorService

/-- JSON string escaping for one character (the escapes JSON.stringify
produces on the characters our documents contain). -/
def jsonEscapeChar (c : Char) : String :=
  if c == '"' then "\\\""
  else if c == '\\' then "\\\\"
  else if c == '\n' then "\\n"
  else if c == '\t' then "\\t"
  else if c == '\r' then "\\r"
  else String.singleton c

/-- A JSON string literal for `s`. -/
def jsonQuote (s : String) : String :=
  "\"" ++ String.join (s.toList.map jsonEscapeChar) ++ "\""

/-- A run of `n` spaces. -/
def spaces (n : Nat) : String :=
  String.mk (List.replicate n ' ')

mutual

/-- Models `JSON.stringify(v, null, 2)` at nesting depth `indent`:
`none` is JavaScript undefined (undefined-valued object entries are
dropped, undefined array items render as null, an undefined top level
returns undefined). -/
def jsonStringifyCore (indent : Nat) : JsValue → Option String
  | .vnull => some "null"
  | .vundefined => none
  | .vbool b => some (cond b "true" "false")
  | .vnum n => some (toString n)
  | .vstr s => some (jsonQuote s)
  | .varr xs =>
    some (if xs.isEmpty then "[]"
      else "[\n" ++ String.intercalate ",\n" (jsonItemLines (indent + 2) xs)
        ++ "\n" ++ spaces indent ++ "]")
  | .vobj fs =>
    let entries := jsonEntryLines (indent + 2) fs
    some (if entries.isEmpty then "\x7b\x7d"
      else "\x7b\n" ++ String.intercalate ",\n" entries ++ "\n" ++ spaces indent ++ "\x7d")

/-- The indented item lines of a JSON array. -/
def jsonItemLines (indent : Nat) : List JsValue → List String
  | [] => []
  | x :: xs =>
    (spaces indent ++ ((jsonStringifyCore indent x).getD "null")) :: jsonItemLines indent xs

/-- The indented `"key": value` lines of a JSON object, skipping
undefined-valued entries. -/
def jsonEntryLines (indent : Nat) : List (String × JsValue) → List String
  | [] => []
  | (k, v) :: fs =>
    match jsonStringifyCore indent v with
    | none => jsonEntryLines indent fs
    | some sv => (spaces indent ++ jsonQuote k ++ ": " ++ sv) :: jsonEntryLines indent fs

end

/-- Top-level `JSON.stringify(v, null, 2)` interpolated into a template
literal (JavaScript renders an undefined interpolation as the text
`undefined`). -/
def jsonStringifyTop (v : JsValue) : String :=
  (jsonStringifyCore 0 v).getD "undefined"

/-- The 1-indexed error enumeration of the correction prompt:
`validationErrors.map((err, idx) => ...).join` in
src/prompts/correction-prompt. -/
def promptErrorLines (validationErrors : List ValidationError) : List String :=
  validationErrors.enum.map fun p =>
    toString (p.1 + 1) ++ ". Field: \"" ++ p.2.field ++ "\" - " ++ p.2.message

/-- The template text before the error enumeration. -/
def promptHeaderLines : List String :=
  ["You are a data correction specialist. Your task is to fix a coding question document that has validation errors.",
   "",
   "## CRITICAL REQUIREMENTS:",
   "1. Return ONLY valid JSON - no markdown, no explanations, no code blocks",
   "2. PRESERVE the _id field exactly as provided",
   "3. PRESERVE the question_id field exactly as provided",
   "4. Fix ALL validation errors listed below",
   "5. Ensure test cases use stdin/stdout format (NOT variable assignment format)",
   "6. All 5 programming languages (c, cpp, java, javascript, python) must have non-empty code",
   "7. difficulty must be EXACTLY one of: \"Easy\", \"Medium\", or \"Hard\"",
   "8. slug must be lowercase-with-hyphens",
   "",
   "## VALIDATION ERRORS TO FIX:"]

/-- The template text between the error enumeration and the serialized
original document. -/
def promptMiddleLines : List String :=
  ["",
   "## SCHEMA DEFINITION:",
   "\x7b",
   "  \"_id\": \"MongoDB ObjectId (PRESERVE EXACTLY)\",",
   "  \"question_id\": \"string (PRESERVE EXACTLY)\",",
   "  \"title\": \"string (required)\",",
   "  \"difficulty\": \"Easy\" | \"Medium\" | \"Hard\" (literal type, case-sensitive),",
   "  \"slug\": \"lowercase-with-hyphens\",",
   "  \"topic_tags\": [\"string\"] (array, min 1 item),",
   "  \"content\": \"string (plain text, no markdown)\",",
   "  \"constraints\": [\"string\"] (array, min 1 item),",
   "  \"testCases\": [",
   "    \x7b",
   "      \"id\": number,",
   "      \"input\": \"string (stdin format: e.g., '5\\n1 2 3 4 5')\",",
   "      \"expectedOutput\": \"string (stdout format: e.g., '15')\",",
   "      \"description\": \"string\",",
   "      \"original_input\": \"string\",",
   "      \"original_output\": \"string\"",
   "    \x7d",
   "  ],",
   "  \"starterCode\": \x7b",
   "    \"c\": \"string (non-empty)\",",
   "    \"cpp\": \"string (non-empty)\",",
   "    \"java\": \"string (non-empty)\",",
   "    \"javascript\": \"string (non-empty)\",",
   "    \"python\": \"string (non-empty)\"",
   "  \x7d,",
   "  \"solutionCode\": \x7b",
   "    \"c\": \"string (non-empty)\",",
   "    \"cpp\": \"string (non-empty)\",",
   "    \"java\": \"string (non-empty)\",",
   "    \"javascript\": \"string (non-empty)\",",
   "    \"python\": \"string (non-empty)\"",
   "  \x7d,",
   "  \"inputFormat\": \"string (should contain code blocks with ```)\",",
   "  \"outputFormat\": \"string (descriptive text)\"",
   "\x7d",
   "",
   "## TEST CASE FORMAT REQUIREMENTS:",
   "- Input must be in stdin format (line-by-line input as user would type)",
   "- Expected output must be in stdout format (what program prints to console)",
   "- WRONG: \"input\": \"nums = [3,5]\", \"expectedOutput\": \"[3,5]\"",
   "- CORRECT: \"input\": \"2\\n3 5\", \"expectedOutput\": \"8\"",
   "",
   "## ORIGINAL DOCUMENT:"]

/-- The template text after the serialized original document. -/
def promptFooterLines : List String :=
  ["",
   "## YOUR TASK:",
   "Fix all validation errors in the document above. Return the corrected document as pure JSON (no markdown, no explanations).",
   "",
   "RESPOND WITH ONLY THE CORRECTED JSON DOCUMENT:"]

/-- Function `generateCorrectionPrompt` of src/prompts/correction-prompt:
the fixed template with the enumerated errors and the document serialized
by `JSON.stringify(document, null, 2)` interpolated in place. -/
def generateCorrectionPrompt (document : JsValue) (validationErrors : List ValidationError) :
    String :=
  String.intercalate "\n" promptHeaderLines ++ "\n"
    ++ String.intercalate "\n" (promptErrorLines validationErrors) ++ "\n"
    ++ String.intercalate "\n" promptMiddleLines ++ "\n"
    ++ jsonStringifyTop document ++ "\n"
    ++ String.intercalate "\n" promptFooterLines

namespace RetryHelper

/-- One-step unfolding of the retry loop. -/
theorem executeFrom_eq (fn : Int → Except E A) (options : RetryOptions)
    (attempt : Int) (lastError : Option E) :
    executeFrom fn options attempt lastError =
      if attempt ≤ options.maxAttempts then
        match fn attempt with
        | .ok a => (.ok a, 1, [])
        | .error e =>
          if attempt = options.maxAttempts then (.error (.wrapped e), 1, [])
          else
            let delay := if options.exponentialBackoff
              then options.delayMs * 2 ^ (attempt - 1).toNat else options.delayMs
            let rest := executeFrom fn options (attempt + 1) (some e)
            (rest.1, rest.2.1 + 1, delay :: rest.2.2)
      else throwLast lastError := by
  rw [executeFrom]
  rfl

/-- When the attempt budget is not positive, the loop body never runs and
the trailing `throw lastError || new Error('Retry failed')` line throws the
generic error: zero invocations, zero delays. -/
theorem execute_of_nonpositive (fn : Int → Except E A) (options : RetryOptions)
    (h : options.maxAttempts < 1) :
    execute fn options = (.error .genericFailure, 0, []) := by
  rw [execute, executeFrom_eq, if_neg (by omega)]
  rfl

/-- When the wrapped operation succeeds immediately and at least one
attempt is allowed, the loop returns after a single invocation with no
delays. -/
theorem execute_of_ok (x : A) (options : RetryOptions) (h : 1 ≤ options.maxAttempts) :
    execute (fun _ => (.ok x : Except E A)) options = (.ok x, 1, []) := by
  rw [execute, executeFrom_eq, if_pos h]

end RetryHelper

/-- Behaviour of the retry loop from attempt `attempt` on, by strong
induction on the remaining attempt budget `n`: the loop invokes the
operation at most `n` more times (at least once while the budget lasts);
under exponential backoff the delays slept are the base delay doubled per
further attempt; and when every remaining attempt fails, the budget is
consumed exactly and the final attempt's error is rethrown unchanged. -/
theorem RetryHelper.executeFrom_props (fn : Int → Except E A) (o : RetryOptions) :
    ∀ (n : Nat) (attempt : Int) (lastError : Option E),
      (o.maxAttempts + 1 - attempt).toNat = n → 1 ≤ attempt →
      (RetryHelper.executeFrom fn o attempt lastError).2.1 ≤ n ∧
      (attempt ≤ o.maxAttempts → 1 ≤ (RetryHelper.executeFrom fn o attempt lastError).2.1) ∧
      (o.exponentialBackoff = true →
        (RetryHelper.executeFrom fn o attempt lastError).2.2 =
          (List.range ((RetryHelper.executeFrom fn o attempt lastError).2.1 - 1)).map
            (fun i => o.delayMs * 2 ^ ((attempt - 1).toNat + i))) ∧
      ((∀ k, attempt ≤ k → k ≤ o.maxAttempts → ∃ e, fn k = .error e) →
        attempt ≤ o.maxAttempts →
        (RetryHelper.executeFrom fn o attempt lastError).2.1 = n ∧
        ∃ e, fn o.maxAttempts = .error e ∧
          (RetryHelper.executeFrom fn o attempt lastError).1 = .error (.wrapped e)) := by
  intro n
  induction n using Nat.strong_induction_on with
  | _ n ih =>
    intro attempt lastError hn h1
    by_cases hle : attempt ≤ o.maxAttempts
    · cases hfn : fn attempt with
      | ok a =>
        have hr : RetryHelper.executeFrom fn o attempt lastError = (.ok a, 1, []) := by
          rw [RetryHelper.executeFrom_eq, if_pos hle, hfn]
        rw [hr]
        refine ⟨by show 1 ≤ n; omega, fun _ => le_refl 1, fun _ => by simp,
          fun hall _ => ?_⟩
        obtain ⟨e, he⟩ := hall attempt le_rfl hle
        rw [hfn] at he
        cases he
      | error e =>
        by_cases heq : attempt = o.maxAttempts
        · have hr : RetryHelper.executeFrom fn o attempt lastError
              = (.error (.wrapped e), 1, []) := by
            rw [RetryHelper.executeFrom_eq, if_pos hle, hfn]
            dsimp only
            rw [if_pos heq]
          rw [hr]
          have hn1 : n = 1 := by omega
          refine ⟨by show 1 ≤ n; omega, fun _ => le_refl 1, fun _ => by simp,
            fun _ _ => ?_⟩
          subst heq
          exact ⟨hn1.symm, e, hfn, rfl⟩
        · have hlt : attempt + 1 ≤ o.maxAttempts := by omega
          have hnpos : 1 ≤ n := by omega
          obtain ⟨hcnt, hpos, hds, hfail⟩ :=
            ih (n - 1) (by omega) (attempt + 1) (some e) (by omega) (by omega)
          have hr : RetryHelper.executeFrom fn o attempt lastError =
              ((RetryHelper.executeFrom fn o (attempt + 1) (some e)).1,
               (RetryHelper.executeFrom fn o (attempt + 1) (some e)).2.1 + 1,
               (if o.exponentialBackoff then o.delayMs * 2 ^ (attempt - 1).toNat
                else o.delayMs)
                 :: (RetryHelper.executeFrom fn o (attempt + 1) (some e)).2.2) := by
            rw [RetryHelper.executeFrom_eq, if_pos hle, hfn]
            dsimp only
            rw [if_neg heq]
          rw [hr]
          refine ⟨?_, ?_, ?_, ?_⟩
          · show (RetryHelper.executeFrom fn o (attempt + 1) (some e)).2.1 + 1 ≤ n
            omega
          · intro _
            show 1 ≤ (RetryHelper.executeFrom fn o (attempt + 1) (some e)).2.1 + 1
            omega
          · intro hexp
            have hm1 : 1 ≤ (RetryHelper.executeFrom fn o (attempt + 1) (some e)).2.1 :=
              hpos hlt
            show (if o.exponentialBackoff then o.delayMs * 2 ^ (attempt - 1).toNat
                  else o.delayMs)
                :: (RetryHelper.executeFrom fn o (attempt + 1) (some e)).2.2 =
              (List.range ((RetryHelper.executeFrom fn o (attempt + 1) (some e)).2.1 + 1 - 1)).map
                (fun i => o.delayMs * 2 ^ ((attempt - 1).toNat + i))
            rw [hexp, if_pos rfl, hds hexp, Nat.add_sub_cancel]
            rw [show List.range (RetryHelper.executeFrom fn o (attempt + 1) (some e)).2.1
                  = 0 :: (List.range ((RetryHelper.executeFrom fn o (attempt + 1) (some e)).2.1 - 1)).map Nat.succ by
              conv_lhs => rw [show (RetryHelper.executeFrom fn o (attempt + 1) (some e)).2.1
                  = ((RetryHelper.executeFrom fn o (attempt + 1) (some e)).2.1 - 1) + 1 by omega]
              rw [List.range_succ_eq_map]]
            rw [List.map_cons, List.map_map]
            refine congrArg₂ List.cons (by rw [Nat.add_zero]) ?_
            refine List.map_congr_left fun i _ => ?_
            show o.delayMs * 2 ^ ((attempt + 1 - 1).toNat + i)
              = o.delayMs * 2 ^ ((attempt - 1).toNat + Nat.succ i)
            have hexpo : (attempt + 1 - 1).toNat + i = (attempt - 1).toNat + Nat.succ i := by
              omega
            rw [hexpo]
          · intro hall hle'
            obtain ⟨hcnt', e', he', hres⟩ :=
              hfail (fun k hk1 hk2 => hall k (by omega) hk2) hlt
            refine ⟨?_, e', he', hres⟩
            show (RetryHelper.executeFrom fn o (attempt + 1) (some e)).2.1 + 1 = n
            omega
    · have hr : RetryHelper.executeFrom fn o attempt lastError
          = RetryHelper.throwLast lastError := by
        rw [RetryHelper.executeFrom_eq, if_neg hle]
      rw [hr]
      cases lastError with
      | none =>
        exact ⟨by simp [RetryHelper.throwLast], fun hc => absurd hc hle,
          fun _ => by simp [RetryHelper.throwLast], fun _ hc => absurd hc hle⟩
      | some e =>
        exact ⟨by simp [RetryHelper.throwLast], fun hc => absurd hc hle,
          fun _ => by simp [RetryHelper.throwLast], fun _ hc => absurd hc hle⟩

/-- C7: for every wrapped operation and retry options with a positive
attempt bound, `RetryHelper.execute` invokes the operation at most
`maxAttempts` times; with exponential backoff enabled the delay slept
after the k-th failed attempt (k counted from 1) is `delayMs * 2 ^ (k - 1)`
— the delays list is exactly the base delay doubled per subsequent failed
attempt; and when every attempt fails, exactly `maxAttempts` invocations
happen and the final attempt's error is thrown unchanged. -/
theorem C7_retry_execute_contract {E A : Type} (fn : Int → Except E A) (o : RetryOptions)
    (hmax : 1 ≤ o.maxAttempts) :
    (RetryHelper.execute fn o).2.1 ≤ o.maxAttempts.toNat ∧
    (o.exponentialBackoff = true →
      (RetryHelper.execute fn o).2.2 =
        (List.range ((RetryHelper.execute fn o).2.1 - 1)).map
          (fun i => o.delayMs * 2 ^ i)) ∧
    ((∀ k, 1 ≤ k → k ≤ o.maxAttempts → ∃ e, fn k = .error e) →
      (RetryHelper.execute fn o).2.1 = o.maxAttempts.toNat ∧
      ∃ e, fn o.maxAttempts = .error e ∧
        (RetryHelper.execute fn o).1 = .error (.wrapped e)) := by
  obtain ⟨h1, _h2, h3, h4⟩ :=
    RetryHelper.executeFrom_props fn o o.maxAttempts.toNat 1 none (by omega) le_rfl
  refine ⟨h1, fun hexp => ?_, fun hall => h4 hall hmax⟩
  show (RetryHelper.executeFrom fn o 1 none).2.2 = _
  rw [h3 hexp]
  refine List.map_congr_left fun i _ => ?_
  have hzero : ((1 : Int) - 1).toNat + i = i := by omega
  rw [hzero]

/-- Witness for C7 at a concrete operation failing both of 2 allowed
attempts with base delay 5 and exponential backoff. -/
theorem C7_witness :
    (RetryHelper.execute (fun k => (.error k : Except Int Nat)) ⟨2, 5, true⟩).2.1 = 2 ∧
    (RetryHelper.execute (fun k => (.error k : Except Int Nat)) ⟨2, 5, true⟩).2.2 = [5] ∧
    (RetryHelper.execute (fun k => (.error k : Except Int Nat)) ⟨2, 5, true⟩).1
      = .error (.wrapped 2) := by
  obtain ⟨_h1, h2, h3⟩ := C7_retry_execute_contract
    (fun k => (.error k : Except Int Nat)) ⟨2, 5, true⟩ (by decide)
  obtain ⟨hcnt, e, he, hres⟩ := h3 (fun k _ _ => ⟨k, rfl⟩)
  have he' : (Except.error 2 : Except Int Nat) = .error e := he
  have he2 : (2 : Int) = e := by injection he'
  refine ⟨?_, ?_, ?_⟩
  · rw [hcnt]
    decide
  · rw [h2 rfl, hcnt]
    decide
  · rw [hres, ← he2]

/-- C10: calling `RetryHelper.execute` with an attempt bound below 1 never
invokes the wrapped operation (zero invocations, zero delays) and throws
the generic `Retry failed` error instead of any operation error. -/
theorem C10_retry_nonpositive_budget {E A : Type} (fn : Int → Except E A)
    (options : RetryOptions) (h : options.maxAttempts < 1) :
    RetryHelper.execute fn options = (.error .genericFailure, 0, []) :=
  RetryHelper.execute_of_nonpositive fn options h

/-- Witness for C10 at attempt bound 0 and an operation that would succeed
if it were ever invoked. -/
theorem C10_witness :
    ((⟨0, 7, true⟩ : RetryOptions).maxAttempts < 1) ∧
    RetryHelper.execute (fun _ => (.ok 0 : Except Nat Nat)) ⟨0, 7, true⟩
      = (.error .genericFailure, 0, []) :=
  ⟨by decide, C10_retry_nonpositive_budget _ _ (by decide)⟩

/-- The conditional replace never changes the stored id set: replacing in
place keeps every key, and a missed match writes nothing. -/
theorem MongoDBService.updateDocument_keys (store : Store) (documentId : String)
    (correctedDocument : JsValue) :
    ((MongoDBService.updateDocument store documentId correctedDocument).2).map Prod.fst
      = store.map Prod.fst := by
  cases h : MongoDBService.findById store documentId with
  | none => simp [MongoDBService.updateDocument, h]
  | some d =>
    simp only [MongoDBService.updateDocument, h]
    rw [List.map_map]
    refine List.map_congr_left fun p _ => ?_
    show (if p.1 == documentId then (p.1, MongoDBService.removeIdField correctedDocument)
          else p).1 = p.1
    split <;> rfl

/-- Safe Updater on an invalid candidate: throw before any store access. -/
theorem UpdaterService.updateDocument_of_invalid (retryOptions : RetryOptions)
    (store : Store) (documentId : String) (correctedDocument : JsValue)
    (hv : (SchemaValidator.validate correctedDocument).isValid = false) :
    UpdaterService.updateDocument retryOptions store documentId correctedDocument
      = (.error (.stillInvalid (SchemaValidator.validate correctedDocument).errors.length),
         store) := by
  unfold UpdaterService.updateDocument
  simp [hv]

/-- Safe Updater on a valid candidate whose target id is absent: throw the
not-found error, store untouched. -/
theorem UpdaterService.updateDocument_of_absent (retryOptions : RetryOptions)
    (store : Store) (documentId : String) (correctedDocument : JsValue)
    (hv : (SchemaValidator.validate correctedDocument).isValid = true)
    (hf : MongoDBService.findById store documentId = none) :
    UpdaterService.updateDocument retryOptions store documentId correctedDocument
      = (.error (.notFound documentId), store) := by
  unfold UpdaterService.updateDocument
  simp [hv, hf]

/-- Safe Updater on a valid candidate whose target exists: the result is
the retried store replace. -/
theorem UpdaterService.updateDocument_of_present (retryOptions : RetryOptions)
    (store : Store) (documentId : String) (correctedDocument : JsValue) (d : JsValue)
    (hv : (SchemaValidator.validate correctedDocument).isValid = true)
    (hf : MongoDBService.findById store documentId = some d) :
    UpdaterService.updateDocument retryOptions store documentId correctedDocument
      = match (RetryHelper.execute
          (fun _ => (Except.ok (MongoDBService.updateDocument store documentId
              correctedDocument) : Except Empty (Bool × Store))) retryOptions).1 with
        | .ok (success, newStore) => (.ok success, newStore)
        | .error _ => (.error .retryFailed, store) := by
  unfold UpdaterService.updateDocument
  simp [hv, hf]

/-- C1: for every id absent from the store and every candidate, the Safe
Updater fails (it throws the still-invalid or not-found error, never
returning a success) and leaves the store exactly as it was; and for every
input whatsoever it preserves the stored id list (and hence the record
count) — `updateDocument` never creates a record. -/
theorem C1_updater_no_create (retryOptions : RetryOptions) (store : Store)
    (documentId : String) (correctedDocument : JsValue) :
    ((UpdaterService.updateDocument retryOptions store documentId correctedDocument).2).map
        Prod.fst = store.map Prod.fst ∧
    ((UpdaterService.updateDocument retryOptions store documentId correctedDocument).2).length
        = store.length ∧
    (MongoDBService.findById store documentId = none →
      (∃ err, (UpdaterService.updateDocument retryOptions store documentId
          correctedDocument).1 = .error err) ∧
      (UpdaterService.updateDocument retryOptions store documentId correctedDocument).2
        = store) := by
  have keys : ((UpdaterService.updateDocument retryOptions store documentId
      correctedDocument).2).map Prod.fst = store.map Prod.fst ∧
      (MongoDBService.findById store documentId = none →
        (∃ err, (UpdaterService.updateDocument retryOptions store documentId
            correctedDocument).1 = .error err) ∧
        (UpdaterService.updateDocument retryOptions store documentId correctedDocument).2
          = store) := by
    cases hv : (SchemaValidator.validate correctedDocument).isValid with
    | false =>
      rw [UpdaterService.updateDocument_of_invalid retryOptions store documentId
        correctedDocument hv]
      exact ⟨rfl, fun _ => ⟨⟨_, rfl⟩, rfl⟩⟩
    | true =>
      cases hf : MongoDBService.findById store documentId with
      | none =>
        rw [UpdaterService.updateDocument_of_absent retryOptions store documentId
          correctedDocument hv hf]
        exact ⟨rfl, fun _ => ⟨⟨_, rfl⟩, rfl⟩⟩
      | some d =>
        rw [UpdaterService.updateDocument_of_present retryOptions store documentId
          correctedDocument d hv hf]
        by_cases hmax : 1 ≤ retryOptions.maxAttempts
        · rw [RetryHelper.execute_of_ok _ _ hmax]
          refine ⟨MongoDBService.updateDocument_keys store documentId correctedDocument,
            fun hnone => ?_⟩
          exact Option.noConfusion hnone
        · rw [RetryHelper.execute_of_nonpositive _ _ (by omega)]
          refine ⟨rfl, fun hnone => ?_⟩
          exact Option.noConfusion hnone
  refine ⟨keys.1, ?_, keys.2⟩
  have := congrArg List.length keys.1
  simpa using this

/-- Witness for C1: updating a well-formed candidate against an empty
store fails and leaves the store empty. -/
theorem C1_witness :
    MongoDBService.findById ([] : Store) "65a0c0ffee0123456789abcd" = none ∧
    (∃ err, (UpdaterService.updateDocument ⟨3, 5000, true⟩ []
        "65a0c0ffee0123456789abcd" validDoc).1 = .error err) ∧
    (UpdaterService.updateDocument ⟨3, 5000, true⟩ [] "65a0c0ffee0123456789abcd"
        validDoc).2 = [] := by
  have h := (C1_updater_no_create ⟨3, 5000, true⟩ [] "65a0c0ffee0123456789abcd"
    validDoc).2.2 rfl
  exact ⟨rfl, h.1, h.2⟩

/-- C4: validity is exactly emptiness of the aggregated error list, and
the semantic (custom) pass contributes errors only when the structural
(zod) pass produced none — with structural errors present the aggregate is
the structural errors alone, and with none it is exactly the converted
custom-pass errors. -/
theorem C4_validity_and_pass_order (document : JsValue) :
    ((SchemaValidator.validate document).isValid = true ↔
      (SchemaValidator.validate document).errors = []) ∧
    (SchemaValidator.validateWithZod document ≠ [] →
      (SchemaValidator.validate document).errors
        = SchemaValidator.validateWithZod document) ∧
    (SchemaValidator.validateWithZod document = [] →
      (SchemaValidator.validate document).errors
        = SchemaValidator.performCustomValidations document) := by
  have hfalse : ∀ z : List ValidationError, z ≠ [] → z.isEmpty = false := by
    intro z hz
    cases z with
    | nil => exact absurd rfl hz
    | cons a l => rfl
  refine ⟨?_, fun hne => ?_, fun hemp => ?_⟩
  · simp [SchemaValidator.validate, List.isEmpty_iff]
  · show SchemaValidator.validateWithZod document ++ _ = SchemaValidator.validateWithZod document
    rw [hfalse _ hne]
    simp
  · show SchemaValidator.validateWithZod document ++ _ = _
    rw [hemp]
    simp

/-- Witness for C4 at the concrete record with difficulty `easy`: the
structural pass alone reports its errors and validity is false. -/
theorem C4_witness :
    SchemaValidator.validateWithZod invalidDoc ≠ [] ∧
    (SchemaValidator.validate invalidDoc).errors
      = SchemaValidator.validateWithZod invalidDoc ∧
    ((SchemaValidator.validate invalidDoc).isValid = true ↔
      (SchemaValidator.validate invalidDoc).errors = []) := by
  have hne : SchemaValidator.validateWithZod invalidDoc ≠ [] := by
    intro h
    have hlen : (SchemaValidator.validateWithZod invalidDoc).length = 1 := by decide
    rw [h] at hlen
    exact Nat.noConfusion hlen
  exact ⟨hne, (C4_validity_and_pass_order invalidDoc).2.1 hne,
    (C4_validity_and_pass_order invalidDoc).1⟩

/-- Counterexample to C3 as stated: when the structural pass returns no
errors and the custom semantic pass raises an exception, `validate` does
not produce the single synthetic invalid-value error on field `document` —
the exception is swallowed inside the custom pass and the result is a
fully valid ValidationResult with zero errors. -/
theorem C3_counterexample :
    (SchemaValidator.validateOutcome none (.ok []) (.error "boom")).isValid = true ∧
    (SchemaValidator.validateOutcome none (.ok []) (.error "boom")).errors.length ≠ 1 := by
  constructor
  · rfl
  · decide

/-- C3 (amended): `validate` always returns a ValidationResult — every
exception path is caught.  An unexpected exception escaping the structural
pass is converted by the outer catch into exactly the single synthetic
invalid-value error on field `document`; an exception inside the custom
semantic pass is caught there and swallowed, leaving a result with only
the errors already collected (none). -/
theorem C3_validate_exception_conversion :
    ∀ (documentId : Option String) (zodOutcome customOutcome : SchemaValidator.PassOutcome),
      (∀ msg, zodOutcome = .error msg →
        SchemaValidator.validateOutcome documentId zodOutcome customOutcome =
          { isValid := false
            errors := [ValidationErrorFactory.invalidValue "document"
              ("Critical validation error: " ++ msg)]
            documentId := documentId }) ∧
      (∀ msg, zodOutcome = .ok [] → customOutcome = .error msg →
        SchemaValidator.validateOutcome documentId zodOutcome customOutcome =
          { isValid := true, errors := [], documentId := documentId }) := by
  intro documentId zodOutcome customOutcome
  constructor
  · rintro msg rfl
    rfl
  · rintro msg rfl rfl
    rfl

/-- Witness for C3 at a concrete structural-pass exception. -/
theorem C3_witness :
    ((.error "zod exploded" : SchemaValidator.PassOutcome) = .error "zod exploded") ∧
    SchemaValidator.validateOutcome (some "doc-1") (.error "zod exploded") (.ok []) =
      { isValid := false
        errors := [ValidationErrorFactory.invalidValue "document"
          ("Critical validation error: " ++ "zod exploded")]
        documentId := some "doc-1" } :=
  ⟨rfl, (C3_validate_exception_conversion (some "doc-1") (.error "zod exploded")
    (.ok [])).1 "zod exploded" rfl⟩

/-- Counterexample to C6 as stated: a test-case input holding a bracket
pair without any comma (and no equals sign) is flagged by the code, though
the claimed criterion (equals sign, or bracket pair with comma) does not
hold of either field. -/
theorem C6_counterexample :
    CodingQuestionValidator.validateTestCaseFormat bracketNoCommaCase ≠ [] ∧
    eqOrBracketCommaFlag bracketNoCommaCase.input = false ∧
    eqOrBracketCommaFlag bracketNoCommaCase.expectedOutput = false := by
  refine ⟨?_, by decide, by decide⟩
  intro h
  have hlen : (CodingQuestionValidator.validateTestCaseFormat bracketNoCommaCase).length
      = 1 := by decide
  rw [h] at hlen
  exact Nat.noConfusion hlen

/-- C6 (amended): a TestCase is flagged exactly when its input contains an
equals sign or a bracket pair (comma irrelevant on the input side), or its
expected output contains an equals sign or a bracket pair together with a
comma; the spec's concrete examples behave as stated — `nums = [3,5]` is
flagged and the stdin-style case is not. -/
theorem C6_flag_criterion :
    (∀ tc : TestCase,
      CodingQuestionValidator.validateTestCaseFormat tc ≠ [] ↔
        (eqOrBracketFlag tc.input = true ∨ eqOrBracketCommaFlag tc.expectedOutput = true)) ∧
    CodingQuestionValidator.validateTestCaseFormat assignmentStyleCase ≠ [] ∧
    CodingQuestionValidator.validateTestCaseFormat stdinStyleCase = [] := by
  refine ⟨?_, ?_, by decide⟩
  · intro tc
    unfold CodingQuestionValidator.validateTestCaseFormat eqOrBracketFlag eqOrBracketCommaFlag
    cases h1 : (strContains tc.input '=' ||
        (strContains tc.input '[' && strContains tc.input ']')) <;>
      cases h2 : (strContains tc.expectedOutput '=' ||
          (strContains tc.expectedOutput '[' && strContains tc.expectedOutput ']'
            && strContains tc.expectedOutput ',')) <;>
      simp [h1, h2]
  · intro h
    have hlen : (CodingQuestionValidator.validateTestCaseFormat assignmentStyleCase).length
        = 1 := by decide
    rw [h] at hlen
    exact Nat.noConfusion hlen

/-- Looking up the assigned key after an in-place overwrite finds the new
value whenever the key was present. -/
theorem getField_map_assign_self (fs : List (String × JsValue)) (k : String) (v : JsValue) :
    getField (fs.map fun p => if p.1 == k then (p.1, v) else p) k
      = (getField fs k).map (fun _ => v) := by
  induction fs with
  | nil => rfl
  | cons p fs ih =>
    by_cases hp : p.1 == k
    · simp [getField, List.find?, hp]
    · simp only [List.map_cons, getField, List.find?] at ih ⊢
      rw [if_neg (by simpa using hp)]
      simpa [hp] using ih

/-- An in-place overwrite of one key leaves every other key's lookup
unchanged. -/
theorem getField_map_assign_other (fs : List (String × JsValue)) (k : String) (v : JsValue)
    (k' : String) (hne : k' ≠ k) :
    getField (fs.map fun p => if p.1 == k then (p.1, v) else p) k' = getField fs k' := by
  induction fs with
  | nil => rfl
  | cons p fs ih =>
    by_cases hp : p.1 == k
    · have hpk : p.1 = k := by simpa using hp
      have hp' : (p.1 == k') = false := by
        rw [hpk]
        simpa using fun h => hne h.symm
      simp only [List.map_cons, getField, List.find?] at ih ⊢
      rw [if_pos hp]
      simpa [hp', hp'] using ih
    · simp only [List.map_cons, getField, List.find?] at ih ⊢
      rw [if_neg (by simpa using hp)]
      by_cases hq : p.1 == k'
      · simp [hq]
      · simpa [hq] using ih

/-- Appending a fresh key makes its lookup find the appended value. -/
theorem getField_append_self (fs : List (String × JsValue)) (k : String) (v : JsValue)
    (h : getField fs k = none) : getField (fs ++ [(k, v)]) k = some v := by
  induction fs with
  | nil => simp [getField, List.find?]
  | cons p fs ih =>
    by_cases hp : p.1 == k
    · simp [getField, List.find?, hp] at h
    · have hp' : (p.1 == k) = false := by simpa using hp
      simp only [getField, List.find?, List.cons_append, hp'] at h ⊢
      exact ih h

/-- Appending a key leaves every other key's lookup unchanged. -/
theorem getField_append_other (fs : List (String × JsValue)) (k : String) (v : JsValue)
    (k' : String) (hne : k' ≠ k) :
    getField (fs ++ [(k, v)]) k' = getField fs k' := by
  induction fs with
  | nil =>
    have : (k == k') = false := by simpa using fun h => hne h.symm
    simp [getField, List.find?, this]
  | cons p fs ih =>
    by_cases hq : p.1 == k'
    · simp [getField, List.find?, hq]
    · have hq' : (p.1 == k') = false := by simpa using hq
      simp only [getField, List.find?, List.cons_append, hq'] at ih ⊢
      exact ih

/-- JavaScript property assignment on an object receiver always succeeds,
yielding an object where the assigned key reads back the assigned value
and every other key is untouched. -/
theorem assignProp_obj (fs : List (String × JsValue)) (k : String) (v : JsValue) :
    ∃ gs, assignProp (.vobj fs) k v = some (.vobj gs) ∧
      getField gs k = some v ∧
      ∀ k', k' ≠ k → getField gs k' = getField fs k' := by
  unfold assignProp
  dsimp only
  by_cases hex : (fs.find? (fun p => p.1 == k)).isSome
  · rw [if_pos hex]
    refine ⟨_, rfl, ?_, fun k' hk' => getField_map_assign_other fs k v k' hk'⟩
    rw [getField_map_assign_self]
    obtain ⟨q, hq⟩ := Option.isSome_iff_exists.mp hex
    unfold getField
    rw [hq]
    rfl
  · rw [if_neg hex]
    refine ⟨_, rfl, ?_, fun k' hk' => getField_append_other fs k v k' hk'⟩
    apply getField_append_self
    unfold getField
    rw [Option.not_isSome_iff_eq_none.mp hex]
    rfl

/-- Counterexample to C5 as stated: a record whose question_id is the
empty string (falsy) loses that field through the round trip — the
returned candidate carries whatever question_id the repair service
invented, not the input's. -/
theorem C5_counterexample :
    (AIProcessorService.correctDocument emptyQidDoc inventedQidReply).map
        (fun c => getProp c "question_id") = some (.vstr "q-999") ∧
    getProp emptyQidDoc "question_id" = .vstr "" ∧
    JsValue.vstr "q-999" ≠ JsValue.vstr "" := by
  refine ⟨rfl, rfl, ?_⟩
  intro h
  injection h with h'
  exact absurd h' (by decide)

/-- C5 (amended): for every record and every object the repair service's
reply parses to, the round trip returns a candidate, and whenever the
input record's `_id` (respectively question_id) is truthy — present and
non-empty — the returned candidate's field equals the input's verbatim,
regardless of what the reply contained there.  Falsy fields are not
restored. -/
theorem C5_identifier_preservation (document : JsValue) (fs : List (String × JsValue)) :
    ∃ corrected, AIProcessorService.correctDocument document (.vobj fs) = some corrected ∧
      ((getProp document "_id").jsTruthy = true →
        getProp corrected "_id" = getProp document "_id") ∧
      ((getProp document "question_id").jsTruthy = true →
        getProp corrected "question_id" = getProp document "question_id") := by
  unfold AIProcessorService.correctDocument
  by_cases h1 : (getProp document "_id").jsTruthy = true
  · rw [if_pos h1]
    obtain ⟨gs, hgs, hself, hother⟩ := assignProp_obj fs "_id" (getProp document "_id")
    rw [hgs]
    dsimp only
    by_cases h2 : (getProp document "question_id").jsTruthy = true
    · rw [if_pos h2]
      obtain ⟨hs, hhs, hself2, hother2⟩ :=
        assignProp_obj gs "question_id" (getProp document "question_id")
      rw [hhs]
      refine ⟨.vobj hs, rfl, fun _ => ?_, fun _ => ?_⟩
      · show (getField hs "_id").getD .vundefined = _
        rw [hother2 "_id" (by decide), hself]
        rfl
      · show (getField hs "question_id").getD .vundefined = _
        rw [hself2]
        rfl
    · rw [if_neg h2]
      refine ⟨.vobj gs, rfl, fun _ => ?_, fun hq => absurd hq h2⟩
      show (getField gs "_id").getD .vundefined = _
      rw [hself]
      rfl
  · rw [if_neg h1]
    dsimp only
    by_cases h2 : (getProp document "question_id").jsTruthy = true
    · rw [if_pos h2]
      obtain ⟨hs, hhs, hself2, hother2⟩ :=
        assignProp_obj fs "question_id" (getProp document "question_id")
      rw [hhs]
      refine ⟨.vobj hs, rfl, fun hid => absurd hid h1, fun _ => ?_⟩
      show (getField hs "question_id").getD .vundefined = _
      rw [hself2]
      rfl
    · rw [if_neg h2]
      exact ⟨.vobj fs, rfl, fun hid => absurd hid h1, fun hq => absurd hq h2⟩

/-- Witness for C5: the fully-formed record's truthy identifiers survive a
reply that contains junk. -/
theorem C5_witness :
    (getProp validDoc "_id").jsTruthy = true ∧
    (getProp validDoc "question_id").jsTruthy = true ∧
    ∃ corrected,
      AIProcessorService.correctDocument validDoc (.vobj [("junk", .vnum 3)])
        = some corrected ∧
      getProp corrected "_id" = getProp validDoc "_id" ∧
      getProp corrected "question_id" = getProp validDoc "question_id" := by
  obtain ⟨c, hc, hid, hqid⟩ :=
    C5_identifier_preservation validDoc [("junk", .vnum 3)]
  exact ⟨rfl, rfl, c, hc, hid rfl, hqid rfl⟩

/-- The backup/enqueue handling of an invalid document never touches the
scanned/valid/invalid counters. -/
theorem ScannerService.handleInvalidDocument_counts (backupOk enqueueOk : Bool)
    (stats : ScanStats) :
    (ScannerService.handleInvalidDocument backupOk enqueueOk stats).totalScanned
        = stats.totalScanned ∧
    (ScannerService.handleInvalidDocument backupOk enqueueOk stats).validDocuments
        = stats.validDocuments ∧
    (ScannerService.handleInvalidDocument backupOk enqueueOk stats).invalidDocuments
        = stats.invalidDocuments := by
  cases backupOk <;> cases enqueueOk <;> exact ⟨rfl, rfl, rfl⟩

/-- One scanned document bumps the scanned counter by one and exactly one
of the valid/invalid counters, according to its validation outcome. -/
theorem ScannerService.processDocument_counts (backupOk enqueueOk : JsValue → Bool)
    (stats : ScanStats) (doc : JsValue) :
    (ScannerService.processDocument backupOk enqueueOk stats doc).totalScanned
        = stats.totalScanned + 1 ∧
    (ScannerService.processDocument backupOk enqueueOk stats doc).validDocuments
        = stats.validDocuments
          + (if (SchemaValidator.validate doc).isValid then 1 else 0) ∧
    (ScannerService.processDocument backupOk enqueueOk stats doc).invalidDocuments
        = stats.invalidDocuments
          + (if (SchemaValidator.validate doc).isValid then 0 else 1) := by
  unfold ScannerService.processDocument
  by_cases hv : (SchemaValidator.validate doc).isValid = true
  · rw [if_pos hv]
    simp [hv]
  · rw [if_neg hv]
    obtain ⟨ht, hva, hi⟩ := ScannerService.handleInvalidDocument_counts
      (backupOk doc) (enqueueOk doc)
      { stats with totalScanned := stats.totalScanned + 1,
                   invalidDocuments := stats.invalidDocuments + 1 }
    rw [ht, hva, hi]
    simp [hv]

/-- Folding the per-document step over a batch adds the batch length to the
scanned counter and partitions it between the valid and invalid counters
by validation outcome. -/
theorem ScannerService.processBatch_counts (backupOk enqueueOk : JsValue → Bool)
    (batch : List JsValue) :
    ∀ stats : ScanStats,
      (ScannerService.processBatch backupOk enqueueOk batch stats).totalScanned
          = stats.totalScanned + batch.length ∧
      (ScannerService.processBatch backupOk enqueueOk batch stats).validDocuments
          = stats.validDocuments
            + batch.countP (fun d => (SchemaValidator.validate d).isValid) ∧
      (ScannerService.processBatch backupOk enqueueOk batch stats).invalidDocuments
          = stats.invalidDocuments
            + batch.countP (fun d => !(SchemaValidator.validate d).isValid) := by
  induction batch with
  | nil => intro stats; exact ⟨rfl, rfl, rfl⟩
  | cons d ds ih =>
    intro stats
    obtain ⟨ht, hva, hi⟩ := ScannerService.processDocument_counts backupOk enqueueOk stats d
    obtain ⟨ht', hva', hi'⟩ := ih (ScannerService.processDocument backupOk enqueueOk stats d)
    have hb : ScannerService.processBatch backupOk enqueueOk (d :: ds) stats
        = ScannerService.processBatch backupOk enqueueOk ds
            (ScannerService.processDocument backupOk enqueueOk stats d) := rfl
    rw [hb]
    refine ⟨?_, ?_, ?_⟩
    · rw [ht', ht]
      simp [Nat.add_assoc, Nat.add_comm 1]
    · rw [hva', hva, List.countP_cons]
      by_cases hv : (SchemaValidator.validate d).isValid = true <;> simp [hv] <;> omega
    · rw [hi', hi, List.countP_cons]
      by_cases hv : (SchemaValidator.validate d).isValid = true <;> simp [hv] <;> omega

/-- C8: in general `processBatch` increments the scanned counter exactly
once per record and splits the batch between the valid and invalid
counters by validation outcome; concretely, scanning 3 valid and 2 invalid
records with no backup or enqueue failures yields ScanStats with
totalScanned 5, validDocuments 3, invalidDocuments 2 and queued 2. -/
theorem C8_scan_statistics :
    (∀ (backupOk enqueueOk : JsValue → Bool) (batch : List JsValue) (stats : ScanStats),
      (ScannerService.processBatch backupOk enqueueOk batch stats).totalScanned
          = stats.totalScanned + batch.length ∧
      (ScannerService.processBatch backupOk enqueueOk batch stats).validDocuments
          = stats.validDocuments
            + batch.countP (fun d => (SchemaValidator.validate d).isValid) ∧
      (ScannerService.processBatch backupOk enqueueOk batch stats).invalidDocuments
          = stats.invalidDocuments
            + batch.countP (fun d => !(SchemaValidator.validate d).isValid)) ∧
    ScannerService.processBatch (fun _ => true) (fun _ => true)
        [validDoc, validDoc, validDoc, invalidDoc, invalidDoc] ScanStats.init
      = { totalScanned := 5, validDocuments := 3, invalidDocuments := 2,
          backedUp := 2, queued := 2, errors := 0 } := by
  exact ⟨fun b q batch stats => ScannerService.processBatch_counts b q batch stats, rfl⟩

/-- The k-th rendered error line of the prompt (0-indexed position k) is
the 1-indexed enumeration of the k-th error's field and message. -/
theorem promptErrorLines_getElem (validationErrors : List ValidationError) (k : Nat)
    (hk : k < validationErrors.length) :
    (promptErrorLines validationErrors)[k]?
      = some (toString (k + 1) ++ ". Field: \"" ++ validationErrors[k].field
          ++ "\" - " ++ validationErrors[k].message) := by
  unfold promptErrorLines
  simp [List.getElem?_enum, List.getElem?_eq_getElem hk]

/-- C9: `generateCorrectionPrompt` is a pure function of the record and the
error list — equal inputs give identical text — and the error block it
embeds enumerates every error 1-indexed with its field and message. -/
theorem C9_prompt_deterministic :
    (∀ (d1 d2 : JsValue) (e1 e2 : List ValidationError), d1 = d2 → e1 = e2 →
      generateCorrectionPrompt d1 e1 = generateCorrectionPrompt d2 e2) ∧
    (∀ (validationErrors : List ValidationError) (k : Nat)
      (hk : k < validationErrors.length),
      (promptErrorLines validationErrors)[k]?
        = some (toString (k + 1) ++ ". Field: \"" ++ validationErrors[k].field
            ++ "\" - " ++ validationErrors[k].message)) := by
  constructor
  · intro d1 d2 e1 e2 hd he
    rw [hd, he]
  · exact promptErrorLines_getElem

/-- Witness for C9 at a concrete record and one-error list. -/
theorem C9_witness :
    generateCorrectionPrompt validDoc
        [{ field := "difficulty", message := "bad difficulty",
           code := .INVALID_VALUE, value := none }]
      = generateCorrectionPrompt validDoc
        [{ field := "difficulty", message := "bad difficulty",
           code := .INVALID_VALUE, value := none }] ∧
    (promptErrorLines
        [{ field := "difficulty", message := "bad difficulty",
           code := .INVALID_VALUE, value := none }])[0]?
      = some "1. Field: \"difficulty\" - bad difficulty" := by
  constructor
  · exact C9_prompt_deterministic.1 validDoc validDoc _ _ rfl rfl
  · rw [C9_prompt_deterministic.2 _ 0 (by decide)]
    decide

/-- C2 (code behaviour at the failing input): a work item enqueued by the
scanner carries retryCount 0 and nothing ever increments it, so with the
default/configured retryMaxAttempts of 3 the consumer escalation branch
compares 0 against 2 on every failed delivery and appends no FailureEntry
at all — however many deliveries fail. -/
theorem C2_escalation_never_fires :
    ∀ (failedQuestionsDir now enqueueTime : String) (doc : JsValue)
      (validationErrors : List ValidationError) (errorMessages : List String),
      (ScannerService.buildQueueMessage enqueueTime doc validationErrors).retryCount = 0 ∧
      Consumer.escalationsForWorkItem 3 failedQuestionsDir now
        (ScannerService.buildQueueMessage enqueueTime doc validationErrors) errorMessages
        = [] := by
  intro failedQuestionsDir now enqueueTime doc validationErrors errorMessages
  refine ⟨rfl, ?_⟩
  have hone : ∀ m, Consumer.failureEntriesOnFailedAttempt 3 failedQuestionsDir now
      (ScannerService.buildQueueMessage enqueueTime doc validationErrors) m = [] := by
    intro m
    unfold Consumer.failureEntriesOnFailedAttempt
    have hrc : (ScannerService.buildQueueMessage enqueueTime doc validationErrors).retryCount
        = 0 := rfl
    rw [hrc, if_neg (by decide)]
  unfold Consumer.escalationsForWorkItem
  induction errorMessages with
  | nil => rfl
  | cons m ms ih =>
    rw [List.flatMap_cons, hone m, ih]
    rfl
